import Mathlib

/-!
Verification of the Archimedes contract-first server framework against its
natural-language specification.

The repository ships the Python-facing parts of the framework: two example
services (`examples/python-native/main.py`, `examples/python-sidecar/main.py`),
the `archimedes` Python package re-exports, and packaging glue.  The Rust core
(request pipeline, router, identity resolver, authorization gate, lifecycle
manager) is not present in the source tree; where a claim is decided by that
missing core, the corresponding definition below is modelled from the spec and
its doc comment says so.  The handlers of the sidecar example, which are present in
full, are embedded directly from the Python source.
-/

namespace Archimedes

/-! ## Identity resolution (spec section 4.3 / section 6) -/

/-- The closed set of caller-identity variants (spec section 3, "Identity"). -/
inductive Identity where
  | spiffe (trust_domain : String) (spiffePath : String)
  | user (user_id : String) (roles : List String)
  | apiKey (key_id : String)
  | anonymous
deriving DecidableEq, Repr

/-- Modelled from the spec: the caller-identity token of section 6 — "a
structured value carrying a discriminant field (`spiffe`|`user`|`api_key`|absent)
plus variant-specific attributes (trust domain + path; user id + roles; key id)".
The Rust `IdentityResolver` that consumes it is not in `src/`. -/
structure TokenData where
  discriminant : String
  trust_domain : Option String
  tokenPath : Option String
  user_id : Option String
  roles : Option (List String)
  key_id : Option String
deriving DecidableEq, Repr

/-- Modelled from the spec: `IdentityResolver.resolve` (section 4.3) — "parses a
structured token (absent or malformed → `Identity::Anonymous`, never a hard
failure) into one of the Identity variants based on a discriminant field".  The
Rust implementation is not in `src/`; an absent token is `none`, and a token is
malformed when its discriminant is outside the closed set of section 6 or a
variant-specific attribute it needs is missing.  The function is total, so
resolution never raises, fails, or blocks. -/
def resolveIdentity (tok : Option TokenData) : Identity :=
  match tok with
  | none => .anonymous
  | some t =>
    if t.discriminant = "spiffe" then
      match t.trust_domain, t.tokenPath with
      | some td, some p => .spiffe td p
      | _, _ => .anonymous
    else if t.discriminant = "user" then
      match t.user_id, t.roles with
      | some uid, some rs => .user uid rs
      | _, _ => .anonymous
    else if t.discriminant = "api_key" then
      match t.key_id with
      | some k => .apiKey k
      | none => .anonymous
    else .anonymous

/-! ## Request pipeline state machine (spec section 4.5) -/

/-- The pipeline states of spec section 4.5. -/
inductive PipelineState where
  | created
  | identified
  | validated
  | authorized
  | dispatched
  | responseChecked
  | completed
  | rejected
deriving DecidableEq, Repr

/-- The outcome obtained from the authorization decision point (spec section
4.4): `Allow`, `Deny{reason}`, or the decision point being unreachable /
timing out. -/
inductive AuthzDecision where
  | allow
  | deny (reason : String)
  | unavailable
deriving DecidableEq, Repr

/-- The per-request stage outcomes the pipeline consumes: whether schema
validation succeeds, and the authorization decision.  Identity resolution has
no failure outcome (spec section 4.3: it never blocks the pipeline). -/
structure StageOutcomes where
  validationOk : Bool
  decision : AuthzDecision
deriving DecidableEq, Repr

/-- The observable per-request pipeline state: the current state-machine phase
and a side-effect counter of handler invocations (spec section 8 observes
handler dispatch "via a side-effect counter"). -/
structure PState where
  phase : PipelineState
  handlerInvocations : Nat
deriving DecidableEq, Repr

/-- Modelled from the spec: one transition of the RequestPipeline state machine
of section 4.5 (`Created → Identified → Validated → Authorized → Dispatched →
ResponseChecked → Completed`, with terminal `Rejected` reachable from
`Identified`, `Validated`, or `Authorized` on stage failure; an unavailable
decision point is fail-closed, treated as Deny — section 4.4).  The Rust
pipeline is not in `src/`.  Handler dispatch is the `authorized → dispatched`
transition and increments the side-effect counter; `completed` and `rejected`
are terminal, so no later stage ever executes after them. -/
def stepPipeline (oc : StageOutcomes) (s : PState) : PState :=
  match s.phase with
  | .created => { s with phase := .identified }
  | .identified => { s with phase := if oc.validationOk then .validated else .rejected }
  | .validated =>
    match oc.decision with
    | .allow => { s with phase := .authorized }
    | .deny _ => { s with phase := .rejected }
    | .unavailable => { s with phase := .rejected }
  | .authorized => { phase := .dispatched, handlerInvocations := s.handlerInvocations + 1 }
  | .dispatched => { s with phase := .responseChecked }
  | .responseChecked => { s with phase := .completed }
  | .completed => s
  | .rejected => s

/-- Iterate the pipeline step function. -/
def runFrom : Nat → StageOutcomes → PState → PState
  | 0, _, s => s
  | n + 1, oc, s => runFrom n oc (stepPipeline oc s)

/-- Run one request through the whole pipeline, from `created`, with no handler
invocation yet recorded.  Six transitions traverse the full successful chain
`created → identified → validated → authorized → dispatched → responseChecked
→ completed`; terminal states absorb the surplus steps. -/
def runPipeline (oc : StageOutcomes) : PState :=
  runFrom 6 oc { phase := .created, handlerInvocations := 0 }

/-- C1: for every request whose authorization decision is Deny or whose
decision point is unavailable, the pipeline reaches the terminal `rejected`
state with a handler-invocation count of zero (the bound handler is never
invoked, so no handler side effect is observable), and `rejected` is terminal:
once entered, no further stage transition occurs. -/
theorem rejected_requests_never_reach_handler (oc : StageOutcomes)
    (h : oc.decision ≠ AuthzDecision.allow) :
    (runPipeline oc).phase = PipelineState.rejected ∧
    (runPipeline oc).handlerInvocations = 0 ∧
    (∀ s : PState, s.phase = PipelineState.rejected → stepPipeline oc s = s) := by
  obtain ⟨v, d⟩ := oc
  refine ⟨?_, ?_, ?_⟩ <;>
    first
    | (intro s hs
       obtain ⟨p, n⟩ := s
       simp only at hs
       subst hs
       rfl)
    | (cases d with
       | allow => exact absurd rfl h
       | deny r => cases v <;> rfl
       | unavailable => cases v <;> rfl)

/-- Witness for C1 at a concrete denied request. -/
theorem rejected_requests_never_reach_handler_witness :
    (runPipeline { validationOk := true, decision := .deny "no scope" }).phase
      = PipelineState.rejected ∧
    (runPipeline { validationOk := true, decision := .deny "no scope" }).handlerInvocations = 0 := by
  have h := rejected_requests_never_reach_handler
    { validationOk := true, decision := .deny "no scope" } (by simp)
  exact ⟨h.1, h.2.1⟩

/-- C2: identity resolution is a total function into the closed `Identity`
type (so it never raises, fails, or blocks the pipeline), an absent token
resolves to `anonymous`, and every malformed token — one whose discriminant is
outside the closed set `spiffe`/`user`/`api_key`, or whose discriminant names
a variant but lacks an attribute that variant needs (trust domain or path for
`spiffe`, user id or roles for `user`, key id for `api_key`) — also resolves
to `anonymous`. -/
theorem identity_resolution_never_fails (t : TokenData)
    (h : (t.discriminant ≠ "spiffe" ∧ t.discriminant ≠ "user" ∧ t.discriminant ≠ "api_key")
       ∨ (t.discriminant = "spiffe" ∧ (t.trust_domain = none ∨ t.tokenPath = none))
       ∨ (t.discriminant = "user" ∧ (t.user_id = none ∨ t.roles = none))
       ∨ (t.discriminant = "api_key" ∧ t.key_id = none)) :
    resolveIdentity none = Identity.anonymous ∧
    resolveIdentity (some t) = Identity.anonymous := by
  refine ⟨rfl, ?_⟩
  rcases h with ⟨h1, h2, h3⟩ | ⟨hd, hm⟩ | ⟨hd, hm⟩ | ⟨hd, hm⟩
  · simp [resolveIdentity, h1, h2, h3]
  · rcases hm with hm | hm
    · rcases h2 : t.tokenPath with _ | pv <;> simp [resolveIdentity, hd, hm, h2]
    · rcases h1 : t.trust_domain with _ | td <;> simp [resolveIdentity, hd, hm, h1]
  · rcases hm with hm | hm
    · rcases h2 : t.roles with _ | rs <;> simp [resolveIdentity, hd, hm, h2]
    · rcases h1 : t.user_id with _ | uv <;> simp [resolveIdentity, hd, hm, h1]
  · simp [resolveIdentity, hd, hm]

/-- Witness for C2 at a concrete attribute-missing malformed token: a `spiffe`
discriminant without a trust domain. -/
theorem identity_resolution_never_fails_witness :
    resolveIdentity none = Identity.anonymous ∧
    resolveIdentity (some (TokenData.mk "spiffe" none (some "/svc/a") none none none))
      = Identity.anonymous :=
  identity_resolution_never_fails (TokenData.mk "spiffe" none (some "/svc/a") none none none)
    (Or.inr (Or.inl ⟨rfl, Or.inl rfl⟩))

/-! ## Lifecycle manager (spec section 4.6, section 6 hook API) -/

/-- A registered lifecycle hook: its name and whether executing it succeeds
(spec section 3, "LifecycleHook"; registration via `on_startup(name, hook)` /
`on_shutdown(name, hook)` as in the decorators of the native example, such as
`@app.on_startup("database_connect")`). -/
structure Hook where
  name : String
  succeeds : Bool
deriving DecidableEq, Repr

/-- The lifecycle states of spec section 4.6. -/
inductive LifecycleState where
  | idle
  | starting
  | running
  | stopping
  | stopped
deriving DecidableEq, Repr

/-- Modelled from the spec: startup-phase hook execution (section 4.6) — hooks
run strictly in registration order and the phase aborts at the first failure,
running no subsequent hook.  Returns the names of the hooks that were executed,
in execution order, and whether the phase succeeded.  The Rust
`LifecycleManager` is not in `src/`. -/
def runHooksStopOnFailure : List Hook → List String × Bool
  | [] => ([], true)
  | h :: rest =>
    if h.succeeds then
      let r := runHooksStopOnFailure rest
      (h.name :: r.1, r.2)
    else ([h.name], false)

/-- Modelled from the spec: shutdown-phase hook execution (section 4.6) — every
hook runs, each failure is recorded but does not prevent the remaining hooks
from running.  Returns the names of the executed hooks in execution order and
the names of the hooks that failed.  The Rust `LifecycleManager` is not in
`src/`. -/
def runHooksBestEffort : List Hook → List String × List String
  | [] => ([], [])
  | h :: rest =>
    let r := runHooksBestEffort rest
    (h.name :: r.1, if h.succeeds then r.2 else h.name :: r.2)

/-- Modelled from the spec: the `Starting` phase (section 4.6) — execute the
startup hooks in registration order; on any failure transition directly to
`Stopped`, otherwise reach `Running`.  Returns the executed hook names and the
resulting lifecycle state. -/
def runStartup (startupHooks : List Hook) : List String × LifecycleState :=
  let r := runHooksStopOnFailure startupHooks
  (r.1, if r.2 then .running else .stopped)

/-- Modelled from the spec: the `Stopping` phase (section 4.6) — execute the
shutdown hooks in the exact reverse of their registration order, best-effort.
Takes the hooks in registration order; returns executed names in execution
order and the failed hook names. -/
def runShutdown (shutdownHooks : List Hook) : List String × List String :=
  runHooksBestEffort shutdownHooks.reverse

/-- Modelled from the spec: requests are accepted only in the `Running` state
(section 4.6: "any request arriving outside `Running` is rejected with a
`ServiceUnavailable` error").  Of `arrivals` requests arriving while the
lifecycle is in state `st`, this many are accepted. -/
def acceptedRequests (st : LifecycleState) (arrivals : Nat) : Nat :=
  if st = .running then arrivals else 0

/-- Executed-name list of a startup run whose first failing hook is `f`:
every hook before `f` ran in order, `f` ran, and nothing after it ran. -/
theorem runStartup_failure_executed (pre : List Hook) (f : Hook) (post : List Hook)
    (hpre : ∀ h ∈ pre, h.succeeds = true) (hf : f.succeeds = false) :
    runHooksStopOnFailure (pre ++ f :: post) = (pre.map Hook.name ++ [f.name], false) := by
  induction pre with
  | nil => simp [runHooksStopOnFailure, hf]
  | cons h rest ih =>
    have hh : h.succeeds = true := hpre h (by simp)
    have ih2 := ih (fun x hx => hpre x (by simp [hx]))
    simp [runHooksStopOnFailure, hh, ih2]

/-- C3: if a startup hook fails, no subsequent startup hook runs (the executed
hooks are exactly the successful ones before it plus the failing hook itself,
in registration order), the lifecycle transitions directly to `stopped`, and
zero requests are accepted for that process run. -/
theorem startup_failure_stops_server (pre : List Hook) (f : Hook) (post : List Hook)
    (hpre : ∀ h ∈ pre, h.succeeds = true) (hf : f.succeeds = false) (arrivals : Nat) :
    (runStartup (pre ++ f :: post)).1 = pre.map Hook.name ++ [f.name] ∧
    (runStartup (pre ++ f :: post)).2 = LifecycleState.stopped ∧
    acceptedRequests (runStartup (pre ++ f :: post)).2 arrivals = 0 := by
  have h := runStartup_failure_executed pre f post hpre hf
  refine ⟨?_, ?_, ?_⟩ <;> simp [runStartup, h, acceptedRequests]

/-- Witness for C3: startup hooks `A` (succeeds), `B` (fails), `C` (would
succeed): only `A` and `B` run, the state is `stopped`, no request accepted. -/
theorem startup_failure_stops_server_witness :
    (runStartup [Hook.mk "A" true, Hook.mk "B" false, Hook.mk "C" true]).1 = ["A", "B"] ∧
    (runStartup [Hook.mk "A" true, Hook.mk "B" false, Hook.mk "C" true]).2
      = LifecycleState.stopped ∧
    acceptedRequests (runStartup [Hook.mk "A" true, Hook.mk "B" false, Hook.mk "C" true]).2 5
      = 0 :=
  startup_failure_stops_server [Hook.mk "A" true] (Hook.mk "B" false) [Hook.mk "C" true]
    (by intro h hh; simp at hh; simp [hh]) rfl 5

/-- C4: during `Stopping`, every registered shutdown hook executes, in the
exact reverse of registration order, regardless of the failure of any
individual hook; in particular hooks `C` then `D` registered in that order execute as
`D` then `C` even when `D` fails. -/
theorem shutdown_hooks_reverse_best_effort (shutdownHooks : List Hook) :
    (runShutdown shutdownHooks).1 = (shutdownHooks.map Hook.name).reverse ∧
    (runShutdown [Hook.mk "C" true, Hook.mk "D" false]).1 = ["D", "C"] := by
  constructor
  · have general : ∀ hs : List Hook, (runHooksBestEffort hs).1 = hs.map Hook.name := by
      intro hs
      induction hs with
      | nil => rfl
      | cons h rest ih => simp [runHooksBestEffort, ih]
    simp [runShutdown, general]
  · rfl

/-! ## Router (spec section 4.1, section 3 "RouteTable") -/

/-- An operation of the route table (spec section 3): stable identifier, HTTP
method, path pattern of literal segments mixed with named placeholders, tag
set.  Schemas and scopes play no role in routing and are not modelled here. -/
structure Operation where
  opId : String
  method : String
  pattern : String
  tags : List String
deriving DecidableEq, Repr

/-- A path-pattern segment: a literal, or a named placeholder. -/
inductive Seg where
  | lit (s : String)
  | param (pname : String)
deriving DecidableEq, Repr

/-- Split a path (or a path pattern) on `/` into its raw segments, keeping
empty segments, as in `"/users/42" ↦ ["", "users", "42"]` and
`"/users/" ↦ ["", "users", ""]`. -/
def splitSegs : List Char → List String
  | [] => [""]
  | c :: cs =>
    let rest := splitSegs cs
    if c = '/' then "" :: rest
    else
      match rest with
      | s :: ss => String.mk (c :: s.data) :: ss
      | [] => [String.mk [c]]

/-- Segments of a path string. -/
def splitPath (p : String) : List String := splitSegs p.data

/-- Parse one pattern segment: `{name}` is a placeholder, anything else a
literal. -/
def parseSeg (s : String) : Seg :=
  match s.data with
  | '{' :: rest =>
    if rest.getLast? = some '}' then .param (String.mk rest.dropLast) else .lit s
  | _ => .lit s

/-- Segments of a path pattern. -/
def patternSegs (p : String) : List Seg := (splitPath p).map parseSeg

/-- Modelled from the spec: the path-match step of `Router.resolve` (section
4.1) — "segment-by-segment, literal segments must match exactly, placeholder
segments accept any single non-empty segment and bind it to its name".
Returns the placeholder bindings on a match.  The Rust router is not in
`src/`. -/
def matchSegs : List Seg → List String → Option (List (String × String))
  | [], [] => some []
  | .lit l :: ps, s :: ss => if l = s then matchSegs ps ss else none
  | .param n :: ps, s :: ss =>
    if s = "" then none
    else (matchSegs ps ss).map (fun binds => (n, s) :: binds)
  | _, _ => none

/-- Match the pattern of one operation against a concrete path. -/
def matchOp (op : Operation) (path : String) : Option (List (String × String)) :=
  matchSegs (patternSegs op.pattern) (splitPath path)

/-- Outcome of `Router.resolve` (spec sections 4.1 and 6): a resolved
operation with its bound path parameters, `MethodNotAllowed` when the path
matches some operation under a different method, `RouteNotFound` otherwise. -/
inductive ResolveResult where
  | found (opId : String) (pathParams : List (String × String))
  | methodNotAllowed
  | routeNotFound
deriving DecidableEq, Repr

/-- Modelled from the spec: `Router.resolve(method, path)` (section 4.1) —
method match is exact, path match is `matchSegs`; the Rust router is not in
`src/`. -/
def resolve (table : List Operation) (method path : String) : ResolveResult :=
  match table.find? (fun op => op.method == method && (matchOp op path).isSome) with
  | some op =>
    match matchOp op path with
    | some ps => .found op.opId ps
    | none => .routeNotFound
  | none =>
    if table.any (fun op => (matchOp op path).isSome) then .methodNotAllowed
    else .routeNotFound

/-- Whether two pattern segments can both match one concrete segment:
literals must be equal, a placeholder is compatible with anything. -/
def segCompatible : Seg → Seg → Bool
  | .lit a, .lit b => a == b
  | _, _ => true

/-- Modelled from the spec: the registration-time ambiguity check of section
4.1 — whether two patterns "could structurally match the same path": same
segment count and every position compatible. -/
def structuralOverlap : List Seg → List Seg → Bool
  | [], [] => true
  | x :: xs, y :: ys => segCompatible x y && structuralOverlap xs ys
  | _, _ => false

/-- Registration-time errors (spec section 7). -/
inductive RegisterError where
  | duplicateOperationId (opId : String)
  | ambiguousRoute (newOp existing : String)
deriving DecidableEq, Repr

/-- Modelled from the spec: `Router.register(operation)` (section 4.1) — fails
with `DuplicateOperationId` if the identifier already exists, and fails when
the new pattern could structurally match the same path as a registered one
("ambiguity is a configuration error, not a routing decision"); otherwise the
operation is appended.  The Rust router is not in `src/`. -/
def register (table : List Operation) (op : Operation) : Except RegisterError (List Operation) :=
  if table.any (fun o => o.opId == op.opId) then
    .error (.duplicateOperationId op.opId)
  else
    match table.find? (fun o => structuralOverlap (patternSegs o.pattern) (patternSegs op.pattern)) with
    | some o => .error (.ambiguousRoute op.opId o.opId)
    | none => .ok (table ++ [op])

/-- Modelled from the spec: `merge(router)` (section 6) — registering every
operation of the sub-router into the parent table, subject to the same
collision rules ("`merge` is a registration-time operation subject to the
uniqueness invariant"); used by `app.merge(users_router)` in the native example. -/
def mergeTables (table sub : List Operation) : Except RegisterError (List Operation) :=
  sub.foldlM register table

/-- Route tables reachable by registration (and hence by merge, which is a
fold of registrations) from the empty table. -/
inductive BuiltTable : List Operation → Prop where
  | empty : BuiltTable []
  | step (t : List Operation) (op : Operation) (t2 : List Operation) :
      BuiltTable t → register t op = Except.ok t2 → BuiltTable t2

/-- Successful registration appends the operation and certifies that its
identifier was fresh. -/
theorem register_ok_inversion (t : List Operation) (op : Operation) (t2 : List Operation)
    (h : register t op = Except.ok t2) :
    t2 = t ++ [op] ∧ ∀ o ∈ t, o.opId ≠ op.opId := by
  unfold register at h
  by_cases hany : t.any (fun o => o.opId == op.opId) = true
  · simp [hany] at h
  · rw [if_neg hany] at h
    constructor
    · rcases hfind : t.find? (fun o => structuralOverlap (patternSegs o.pattern) (patternSegs op.pattern)) with _ | o
      · rw [hfind] at h
        exact (Except.ok.inj h).symm
      · rw [hfind] at h
        exact absurd h (by simp)
    · intro o ho heq
      exact hany (List.any_eq_true.mpr ⟨o, ho, by simp [heq]⟩)

/-- Two patterns that both match one concrete segment list structurally
overlap. -/
theorem shared_path_overlap (xs : List Seg) :
    ∀ ys segs p q, matchSegs xs segs = some p → matchSegs ys segs = some q →
      structuralOverlap xs ys = true := by
  induction xs with
  | nil =>
    intro ys segs p q hx hy
    cases segs with
    | cons s ss => exact Option.noConfusion hx
    | nil =>
      cases ys with
      | nil => rfl
      | cons y ys2 => cases y <;> exact Option.noConfusion hy
  | cons x xs2 ih =>
    intro ys segs p q hx hy
    cases segs with
    | nil => cases x <;> exact Option.noConfusion hx
    | cons s ss =>
      cases ys with
      | nil => exact Option.noConfusion hy
      | cons y ys2 =>
        have hx2 : ∃ p2, matchSegs xs2 ss = some p2 := by
          cases x with
          | lit l =>
            simp only [matchSegs] at hx
            by_cases hls : l = s
            · rw [if_pos hls] at hx; exact ⟨p, hx⟩
            · rw [if_neg hls] at hx; exact absurd hx (by simp)
          | param n =>
            simp only [matchSegs] at hx
            by_cases hse : s = ""
            · rw [if_pos hse] at hx; exact absurd hx (by simp)
            · rw [if_neg hse] at hx
              rcases hm : matchSegs xs2 ss with _ | p2
              · rw [hm] at hx; exact absurd hx (by simp)
              · exact ⟨p2, rfl⟩
        have hy2 : ∃ q2, matchSegs ys2 ss = some q2 := by
          cases y with
          | lit l =>
            simp only [matchSegs] at hy
            by_cases hls : l = s
            · rw [if_pos hls] at hy; exact ⟨q, hy⟩
            · rw [if_neg hls] at hy; exact absurd hy (by simp)
          | param n =>
            simp only [matchSegs] at hy
            by_cases hse : s = ""
            · rw [if_pos hse] at hy; exact absurd hy (by simp)
            · rw [if_neg hse] at hy
              rcases hm : matchSegs ys2 ss with _ | q2
              · rw [hm] at hy; exact absurd hy (by simp)
              · exact ⟨q2, rfl⟩
        obtain ⟨p2, hp2⟩ := hx2
        obtain ⟨q2, hq2⟩ := hy2
        have hrec := ih ys2 ss p2 q2 hp2 hq2
        have hcomp : segCompatible x y = true := by
          cases x with
          | param n => rfl
          | lit l1 =>
            cases y with
            | param n => rfl
            | lit l2 =>
              simp only [matchSegs] at hx hy
              by_cases h1 : l1 = s
              · by_cases h2 : l2 = s
                · simp [segCompatible, h1, h2]
                · rw [if_neg h2] at hy; exact absurd hy (by simp)
              · rw [if_neg h1] at hx; exact absurd hx (by simp)
        simp [structuralOverlap, hcomp, hrec]

/-- Identifier uniqueness holds in every table reachable by registration. -/
theorem builtTable_nodup (t : List Operation) (ht : BuiltTable t) :
    (t.map Operation.opId).Nodup := by
  induction ht with
  | empty => exact List.nodup_nil
  | step t0 op t2 _ hreg ih =>
    obtain ⟨ht2, hfresh⟩ := register_ok_inversion t0 op t2 hreg
    subst ht2
    rw [List.map_append, List.nodup_append]
    refine ⟨ih, List.nodup_singleton _, ?_⟩
    intro a ha hb
    simp only [List.map_cons, List.map_nil, List.mem_singleton] at hb
    subst hb
    obtain ⟨o, ho, hoe⟩ := List.mem_map.mp ha
    exact hfresh o ho hoe

/-- A successful merge of registrable operations into a reachable table yields
a reachable table: merge is a fold of registrations. -/
theorem mergeTables_built (sub : List Operation) :
    ∀ t t2, BuiltTable t → mergeTables t sub = Except.ok t2 → BuiltTable t2 := by
  induction sub with
  | nil =>
    intro t t2 ht h
    simp only [mergeTables, List.foldlM_nil] at h
    cases h
    exact ht
  | cons o rest ih =>
    intro t t2 ht h
    simp only [mergeTables, List.foldlM_cons] at h
    rcases hr : register t o with e | t1
    · rw [hr] at h
      exact Except.noConfusion h
    · rw [hr] at h
      have ht1 : BuiltTable t1 := BuiltTable.step t o t1 ht hr
      exact ih t1 t2 ht1 h

/-- C5: registering an operation whose identifier is already present fails
with `DuplicateOperationId`; registering an operation whose path pattern could
structurally match the same concrete path as a registered one fails at
registration time (never resolved at request time); a successful merge of a
reachable table is again a reachable table; and identifier uniqueness is an
invariant of every fully composed (reachable) table. -/
theorem registration_collision_invariant (table : List Operation) (op : Operation) :
    ((∃ o ∈ table, o.opId = op.opId) →
      register table op = Except.error (RegisterError.duplicateOperationId op.opId)) ∧
    ((∃ o ∈ table, ∃ segs p q,
        matchSegs (patternSegs o.pattern) segs = some p ∧
        matchSegs (patternSegs op.pattern) segs = some q) →
      ∃ e, register table op = Except.error e) ∧
    (∀ sub t2, BuiltTable table → mergeTables table sub = Except.ok t2 → BuiltTable t2) ∧
    (∀ t, BuiltTable t → (t.map Operation.opId).Nodup) := by
  refine ⟨?_, ?_, ?_, ?_⟩
  · intro ⟨o, ho, hoe⟩
    have hany : table.any (fun o2 => o2.opId == op.opId) = true := by
      simp only [List.any_eq_true]
      exact ⟨o, ho, by simp [hoe]⟩
    simp [register, hany]
  · intro ⟨o, ho, segs, p, q, hp, hq⟩
    by_cases hany : table.any (fun o2 => o2.opId == op.opId) = true
    · exact ⟨RegisterError.duplicateOperationId op.opId, by simp [register, hany]⟩
    · have hov : structuralOverlap (patternSegs o.pattern) (patternSegs op.pattern) = true :=
        shared_path_overlap _ _ segs p q hp hq
      have hfind : (table.find? (fun o2 => structuralOverlap (patternSegs o2.pattern) (patternSegs op.pattern))).isSome := by
        rw [List.find?_isSome]
        exact ⟨o, ho, hov⟩
      rcases hf : table.find? (fun o2 => structuralOverlap (patternSegs o2.pattern) (patternSegs op.pattern)) with _ | o2
      · rw [hf] at hfind; simp at hfind
      · exact ⟨RegisterError.ambiguousRoute op.opId o2.opId, by simp [register, hany, hf]⟩
  · intro sub t2 ht h
    exact mergeTables_built sub table t2 ht h
  · exact builtTable_nodup

/-- The `getUser` operation of the contract used by the examples: the
`get_user` handler of the native example reads `ctx.path_params["userId"]`,
so its pattern is `/users/{userId}` under the users router. -/
def getUserOp : Operation :=
  { opId := "getUser", method := "GET", pattern := "/users/{userId}", tags := ["users", "api"] }

/-- Witness for C5: registering a second operation reusing the identifier
`getUser` fails with `DuplicateOperationId`, and a built singleton table has
unique identifiers. -/
theorem registration_collision_invariant_witness :
    register [getUserOp] { opId := "getUser", method := "DELETE", pattern := "/x", tags := [] }
      = Except.error (RegisterError.duplicateOperationId "getUser") :=
  (registration_collision_invariant [getUserOp]
    { opId := "getUser", method := "DELETE", pattern := "/x", tags := [] }).1
    ⟨getUserOp, by simp, rfl⟩

/-- C6: resolving `GET /users/42` against the `getUser` operation declared
with pattern `/users/{userId}` yields that operation with `userId` bound to
`"42"`; resolving `/users/` (empty placeholder segment) yields
`routeNotFound`; and in general a placeholder segment binds any single
non-empty segment and rejects the empty segment. -/
theorem placeholder_binding_round_trip :
    resolve [getUserOp] "GET" "/users/42"
      = ResolveResult.found "getUser" [("userId", "42")] ∧
    resolve [getUserOp] "GET" "/users/" = ResolveResult.routeNotFound ∧
    (∀ n s ps ss, s ≠ "" →
      matchSegs (Seg.param n :: ps) (s :: ss)
        = (matchSegs ps ss).map (fun binds => (n, s) :: binds)) ∧
    (∀ n ps ss, matchSegs (Seg.param n :: ps) ("" :: ss) = none) := by
  refine ⟨by decide, by decide, ?_, ?_⟩
  · intro n s ps ss hs
    simp [matchSegs, hs]
  · intro n ps ss
    simp [matchSegs]

/-- Witness for C6: a placeholder binds the concrete non-empty segment `7`. -/
theorem placeholder_binding_round_trip_witness :
    resolve [getUserOp] "GET" "/users/42"
      = ResolveResult.found "getUser" [("userId", "42")] ∧
    matchSegs [Seg.param "id"] ["7"] = some [("id", "7")] := by
  refine ⟨placeholder_binding_round_trip.1, ?_⟩
  rw [placeholder_binding_round_trip.2.2.1 "id" "7" [] [] (by decide)]
  rfl

/-! ## Sidecar example (`src/examples/python-sidecar/main.py`), embedded -/

/-- `User` of the sidecar example (`main.py`, class `User`). -/
structure User where
  id : String
  name : String
  email : String
  created_at : String
deriving DecidableEq, Repr

/-- `ErrorResponse` of the sidecar example (`main.py`, class `ErrorResponse`):
a stable code, a human message, and the request identifier. -/
structure ErrorResponse where
  code : String
  message : String
  request_id : Option String
deriving DecidableEq, Repr

/-- `CreateUserRequest` of the sidecar example. -/
structure CreateUserRequest where
  name : String
  email : String
deriving DecidableEq, Repr

/-- `UpdateUserRequest` of the sidecar example: both fields optional. -/
structure UpdateUserRequest where
  name : Option String
  email : Option String
deriving DecidableEq, Repr

/-- The in-memory `users_db` of the sidecar example, embedded as an association
list in insertion order (a Python dict preserves insertion order and has
unique keys). -/
def aliceUser : User :=
  { id := "1", name := "Alice Smith", email := "alice@example.com",
    created_at := "2026-01-01T00:00:00Z" }

/-- The second seeded user of `users_db`. -/
def bobUser : User :=
  { id := "2", name := "Bob Johnson", email := "bob@example.com",
    created_at := "2026-01-02T00:00:00Z" }

/-- Initial contents of `users_db`. -/
def initialUsersDb : List (String × User) := [("1", aliceUser), ("2", bobUser)]

/-- `users_db.get(key)`: first (unique, for a dict) entry with that key. -/
def dbGet (db : List (String × User)) (k : String) : Option User :=
  (db.find? (fun p => p.1 == k)).map Prod.snd

/-- `users_db[key] = u`: replace in place when the key exists, append
otherwise — Python dict assignment preserving insertion order. -/
def dbSet (db : List (String × User)) (k : String) (u : User) : List (String × User) :=
  if db.any (fun p => p.1 == k) then
    db.map (fun p => if p.1 == k then (k, u) else p)
  else db ++ [(k, u)]

/-- `get_user` of the sidecar example: look the user up; on a miss raise a 404
with a structured `ErrorResponse` carrying code `USER_NOT_FOUND` and the
request id from the context. -/
def get_user (db : List (String × User)) (user_id rid : String) : Except ErrorResponse User :=
  match dbGet db user_id with
  | none =>
    .error { code := "USER_NOT_FOUND",
             message := "User with ID " ++ user_id ++ " not found",
             request_id := some rid }
  | some u => .ok u

/-- `create_user` of the sidecar example: scan `users_db.values()` for the
email; on a hit raise a 400 with code `EMAIL_EXISTS` before touching the
store; otherwise insert a fresh user under a fresh uuid key.  The fresh uuid
and timestamp are passed in explicitly; the second component is the store
after the call. -/
def create_user (db : List (String × User)) (body : CreateUserRequest)
    (freshId freshTime rid : String) :
    Except ErrorResponse User × List (String × User) :=
  if db.any (fun p => p.2.email == body.email) then
    (.error { code := "EMAIL_EXISTS",
              message := "User with email " ++ body.email ++ " already exists",
              request_id := some rid }, db)
  else
    let u : User := { id := freshId, name := body.name, email := body.email,
                      created_at := freshTime }
    (.ok u, dbSet db freshId u)

/-- `update_user` of the sidecar example: 404 on a missing user; otherwise
rebuild the user, replacing `name` when `body.name` is not `None`, then
`email` when `body.email` is not `None`, keeping `id` and `created_at`, and
store the result back under the same key. -/
def update_user (db : List (String × User)) (user_id : String)
    (body : UpdateUserRequest) (rid : String) :
    Except ErrorResponse User × List (String × User) :=
  match dbGet db user_id with
  | none =>
    (.error { code := "USER_NOT_FOUND",
              message := "User with ID " ++ user_id ++ " not found",
              request_id := some rid }, db)
  | some user =>
    let user1 : User :=
      match body.name with
      | some n => { id := user.id, name := n, email := user.email,
                    created_at := user.created_at }
      | none => user
    let user2 : User :=
      match body.email with
      | some e => { id := user1.id, name := user1.name, email := e,
                    created_at := user1.created_at }
      | none => user1
    (.ok user2, dbSet db user_id user2)

/-- The request context assembled by `get_request_context` of the sidecar
example from the sidecar-provided headers (the parsed caller identity is
orthogonal to the claims below and not carried). -/
structure RequestCtx where
  request_id : String
  operation_id : Option String
  reqPath : String
  reqMethod : String
deriving DecidableEq, Repr

/-- `get_request_context` of the sidecar example: `request_id` is
`x_request_id or str(uuid.uuid4())` — the header value when it is truthy
(present and non-empty), a freshly generated identifier otherwise; the fresh
uuid is passed in explicitly.  `operation_id`, path and method pass through. -/
def get_request_context (x_request_id x_operation_id : Option String)
    (urlPath httpMethod freshId : String) : RequestCtx :=
  { request_id :=
      match x_request_id with
      | none => freshId
      | some s => if s = "" then freshId else s,
    operation_id := x_operation_id,
    reqPath := urlPath,
    reqMethod := httpMethod }

/-- Modelled from the spec: section 7 — "internal handler faults are never
echoed verbatim — they are mapped to a generic `HandlerError` with the
identifier for server-side lookup".  The fault mapping of the Rust pipeline is
not in `src/`; the mapped error ignores the text of the fault by construction. -/
def mapHandlerFault (_fault : String) (rid : String) : ErrorResponse :=
  { code := "HANDLER_ERROR",
    message := "Internal handler error; use the request id for server-side lookup",
    request_id := some rid }

/-- Writing back the value already stored under a key leaves the store
unchanged (keys are unique, as in a Python dict). -/
theorem dbSet_self (db : List (String × User)) (uid : String) (user : User)
    (hnd : (db.map Prod.fst).Nodup) (h : dbGet db uid = some user) :
    dbSet db uid user = db := by
  induction db with
  | nil => exact Option.noConfusion h
  | cons p rest ih =>
    rw [List.map_cons, List.nodup_cons] at hnd
    obtain ⟨hp1, hndr⟩ := hnd
    by_cases hp : (p.1 == uid) = true
    · have hpe : p.1 = uid := eq_of_beq hp
      have huser : user = p.2 := by
        simp only [dbGet, List.find?_cons, hp] at h
        exact (Option.some.inj h).symm
      have hany : (p :: rest).any (fun q => q.1 == uid) = true :=
        List.any_eq_true.mpr ⟨p, by simp, hp⟩
      have hrest : ∀ q ∈ rest, (q.1 == uid) = false := by
        intro q hq
        by_contra hcon
        have hq1 : q.1 = uid := eq_of_beq (by simpa using hcon)
        exact hp1 (hpe ▸ hq1 ▸ List.mem_map_of_mem Prod.fst hq)
      have hfp : (if p.1 == uid then (uid, user) else p) = p := by
        rw [if_pos hp, ← hpe, huser]
      have hmap : rest.map (fun q => if q.1 == uid then (uid, user) else q) = rest := by
        conv_rhs => rw [← List.map_id rest]
        refine List.map_congr_left ?_
        intro q hq
        simp [hrest q hq]
      unfold dbSet
      rw [if_pos hany, List.map_cons, hfp, hmap]
    · have hp2 : (p.1 == uid) = false := by simpa using hp
      have hrest : dbGet rest uid = some user := by
        simpa only [dbGet, List.find?_cons, hp2] using h
      have ihr := ih hndr hrest
      have hanyr : rest.any (fun q => q.1 == uid) = true := by
        rcases hf : rest.find? (fun q => q.1 == uid) with _ | q0
        · rw [dbGet, hf] at hrest
          exact Option.noConfusion hrest
        · have hmem := List.mem_of_find?_eq_some hf
          have hpred := List.find?_some hf
          exact List.any_eq_true.mpr ⟨q0, hmem, hpred⟩
      have hany : (p :: rest).any (fun q => q.1 == uid) = true := by
        simp [List.any_cons, hanyr]
      have hfp : (if p.1 == uid then (uid, user) else p) = p :=
        if_neg (by simp [hp2])
      unfold dbSet at ihr ⊢
      rw [if_pos hanyr] at ihr
      rw [if_pos hany, List.map_cons, hfp, ihr]

/-- C9: a successful `update_user` keeps the stored `id` and `created_at`
exactly, sets `name`/`email` to the request-body value exactly when that field
is present and keeps the stored value otherwise, and when both fields are
absent the whole store is untouched. -/
theorem update_user_frame (db : List (String × User)) (uid rid : String)
    (body : UpdateUserRequest) (user : User)
    (hnd : (db.map Prod.fst).Nodup) (h : dbGet db uid = some user) :
    ∃ u2, (update_user db uid body rid).1 = Except.ok u2 ∧
      (update_user db uid body rid).2 = dbSet db uid u2 ∧
      u2.id = user.id ∧ u2.created_at = user.created_at ∧
      u2.name = body.name.getD user.name ∧
      u2.email = body.email.getD user.email ∧
      (body.name = none → body.email = none → (update_user db uid body rid).2 = db) := by
  rcases hn : body.name with _ | n <;> rcases he : body.email with _ | e
  · refine ⟨user, ?_, ?_, rfl, rfl, by simp [hn], by simp [he], ?_⟩
    · simp [update_user, h, hn, he]
    · simp [update_user, h, hn, he]
    · intro _ _
      simp only [update_user, h, hn, he]
      exact dbSet_self db uid user hnd h
  · refine ⟨{ id := user.id, name := user.name, email := e, created_at := user.created_at },
      ?_, ?_, rfl, rfl, by simp [hn], by simp [he], fun _ hcon => absurd hcon (by simp [he])⟩
    · simp [update_user, h, hn, he]
    · simp [update_user, h, hn, he]
  · refine ⟨{ id := user.id, name := n, email := user.email, created_at := user.created_at },
      ?_, ?_, rfl, rfl, by simp [hn], by simp [he], fun hcon => absurd hcon (by simp [hn])⟩
    · simp [update_user, h, hn, he]
    · simp [update_user, h, hn, he]
  · refine ⟨{ id := user.id, name := n, email := e, created_at := user.created_at },
      ?_, ?_, rfl, rfl, by simp [hn], by simp [he], fun hcon => absurd hcon (by simp [hn])⟩
    · simp [update_user, h, hn, he]
    · simp [update_user, h, hn, he]

/-- Witness for C9: renaming Alice in the seeded store keeps her id,
creation date, and email. -/
theorem update_user_frame_witness :
    ∃ u2, (update_user initialUsersDb "1" (UpdateUserRequest.mk (some "Alicia") none) "req-7").1
        = Except.ok u2 ∧
      (update_user initialUsersDb "1" (UpdateUserRequest.mk (some "Alicia") none) "req-7").2
        = dbSet initialUsersDb "1" u2 ∧
      u2.id = aliceUser.id ∧ u2.created_at = aliceUser.created_at ∧
      u2.name = (UpdateUserRequest.mk (some "Alicia") none).name.getD aliceUser.name ∧
      u2.email = (UpdateUserRequest.mk (some "Alicia") none).email.getD aliceUser.email ∧
      ((UpdateUserRequest.mk (some "Alicia") none).name = none →
        (UpdateUserRequest.mk (some "Alicia") none).email = none →
        (update_user initialUsersDb "1" (UpdateUserRequest.mk (some "Alicia") none) "req-7").2
          = initialUsersDb) :=
  update_user_frame initialUsersDb "1" "req-7" (UpdateUserRequest.mk (some "Alicia") none)
    aliceUser (by decide) (by decide)

/-- C10: `create_user` is atomic on error — when some stored user already has
the requested email it returns the structured 400 error `EMAIL_EXISTS`
carrying the request id and leaves the store unchanged; otherwise it returns a
fresh user whose `name` and `email` equal those of the request body and the store
grows by exactly that one entry. -/
theorem create_user_atomic (db : List (String × User)) (body : CreateUserRequest)
    (freshId freshTime rid : String) (hfresh : ∀ p ∈ db, p.1 ≠ freshId) :
    ((∃ p ∈ db, p.2.email = body.email) →
      (∃ e, (create_user db body freshId freshTime rid).1 = Except.error e ∧
        e.code = "EMAIL_EXISTS" ∧ e.request_id = some rid) ∧
      (create_user db body freshId freshTime rid).2 = db) ∧
    ((∀ p ∈ db, p.2.email ≠ body.email) →
      ∃ u, (create_user db body freshId freshTime rid).1 = Except.ok u ∧
        u.name = body.name ∧ u.email = body.email ∧
        (create_user db body freshId freshTime rid).2 = db ++ [(freshId, u)] ∧
        (create_user db body freshId freshTime rid).2.length = db.length + 1) := by
  constructor
  · intro ⟨p, hp, hpe⟩
    have hany : db.any (fun q => q.2.email == body.email) = true :=
      List.any_eq_true.mpr ⟨p, hp, by simp [hpe]⟩
    have herr : (create_user db body freshId freshTime rid).1
        = Except.error { code := "EMAIL_EXISTS",
                         message := "User with email " ++ body.email ++ " already exists",
                         request_id := some rid } := by
      simp [create_user, hany]
    refine ⟨⟨_, herr, rfl, rfl⟩, ?_⟩
    simp [create_user, hany]
  · intro hno
    have hany : db.any (fun q => q.2.email == body.email) = false := by
      rw [Bool.eq_false_iff]
      intro hcon
      obtain ⟨p, hp, hpe⟩ := List.any_eq_true.mp hcon
      exact hno p hp (by simpa using hpe)
    have hkey : db.any (fun p => p.1 == freshId) = false := by
      rw [Bool.eq_false_iff]
      intro hcon
      obtain ⟨p, hp, hpe⟩ := List.any_eq_true.mp hcon
      exact hfresh p hp (by simpa using hpe)
    refine ⟨{ id := freshId, name := body.name, email := body.email, created_at := freshTime },
      ?_, rfl, rfl, ?_, ?_⟩
    · simp [create_user, hany]
    · simp [create_user, hany, dbSet, hkey]
    · simp [create_user, hany, dbSet, hkey]

/-- Witness for C10: creating Carol in the seeded store succeeds and grows the
store from two entries to three. -/
theorem create_user_atomic_witness :
    ∃ u, (create_user initialUsersDb (CreateUserRequest.mk "Carol" "carol@example.com")
            "u-3" "2026-02-01T00:00:00Z" "req-9").1 = Except.ok u ∧
      u.name = (CreateUserRequest.mk "Carol" "carol@example.com").name ∧
      u.email = (CreateUserRequest.mk "Carol" "carol@example.com").email ∧
      (create_user initialUsersDb (CreateUserRequest.mk "Carol" "carol@example.com")
          "u-3" "2026-02-01T00:00:00Z" "req-9").2 = initialUsersDb ++ [("u-3", u)] ∧
      (create_user initialUsersDb (CreateUserRequest.mk "Carol" "carol@example.com")
          "u-3" "2026-02-01T00:00:00Z" "req-9").2.length = initialUsersDb.length + 1 :=
  (create_user_atomic initialUsersDb (CreateUserRequest.mk "Carol" "carol@example.com")
    "u-3" "2026-02-01T00:00:00Z" "req-9" (by decide)).2 (by decide)

/-- C7 as stated fails on `get_request_context`: a present but empty
`X-Request-Id` header (`some ""`) is not propagated — the Python expression
`x_request_id or str(uuid.uuid4())` treats the empty string as falsy and
generates a fresh identifier instead. -/
theorem request_id_empty_header_counterexample :
    (get_request_context (some "") none "/users" "GET" "generated-uuid").request_id
      = "generated-uuid" ∧
    "generated-uuid" ≠ "" := by
  exact ⟨rfl, by decide⟩

/-- C7 (amended): the request identifier is propagated from inbound metadata
unchanged when present and non-empty, and a fresh identifier is generated
exactly when it is absent or empty. -/
theorem request_id_propagation (xrid x_op : Option String) (p m fid : String) :
    (∀ s, xrid = some s → s ≠ "" →
      (get_request_context xrid x_op p m fid).request_id = s) ∧
    ((xrid = none ∨ xrid = some "") →
      (get_request_context xrid x_op p m fid).request_id = fid) := by
  constructor
  · intro s hs hne
    subst hs
    simp [get_request_context, hne]
  · intro h
    rcases h with h | h <;> subst h <;> simp [get_request_context]

/-- Witness for C7 (amended): a non-empty inbound id passes through; an
absent one is replaced by the fresh identifier. -/
theorem request_id_propagation_witness :
    (get_request_context (some "req-1") none "/users" "GET" "fresh").request_id = "req-1" ∧
    (get_request_context none none "/users" "GET" "fresh").request_id = "fresh" :=
  ⟨(request_id_propagation (some "req-1") none "/users" "GET" "fresh").1 "req-1" rfl
      (by decide),
   (request_id_propagation none none "/users" "GET" "fresh").2 (Or.inl rfl)⟩

/-- C8: every error the embedded sidecar handlers return to a client is a
structured `ErrorResponse` with a stable code, the human-readable message
shown, and the request identifier for correlation; and an internal handler
fault is mapped to the generic `HandlerError`-class response, whose content is
the same for any two faults (never echoed verbatim) and carries the request
identifier. -/
theorem errors_structured_never_echoed (db : List (String × User))
    (uid rid fid ftime : String) (body : CreateUserRequest) (ubody : UpdateUserRequest)
    (f1 f2 : String) :
    (∀ e, get_user db uid rid = Except.error e →
      e.code = "USER_NOT_FOUND" ∧
      e.message = "User with ID " ++ uid ++ " not found" ∧
      e.request_id = some rid) ∧
    (∀ e, (create_user db body fid ftime rid).1 = Except.error e →
      e.code = "EMAIL_EXISTS" ∧
      e.message = "User with email " ++ body.email ++ " already exists" ∧
      e.request_id = some rid) ∧
    (∀ e, (update_user db uid ubody rid).1 = Except.error e →
      e.code = "USER_NOT_FOUND" ∧
      e.message = "User with ID " ++ uid ++ " not found" ∧
      e.request_id = some rid) ∧
    (mapHandlerFault f1 rid = mapHandlerFault f2 rid ∧
     (mapHandlerFault f1 rid).code = "HANDLER_ERROR" ∧
     (mapHandlerFault f1 rid).request_id = some rid) := by
  refine ⟨?_, ?_, ?_, rfl, rfl, rfl⟩
  · intro e he
    rcases hg : dbGet db uid with _ | u
    · rw [get_user, hg] at he
      obtain he2 := (Except.error.inj he).symm
      subst he2
      exact ⟨rfl, rfl, rfl⟩
    · rw [get_user, hg] at he
      exact Except.noConfusion he
  · intro e he
    by_cases hany : db.any (fun q => q.2.email == body.email) = true
    · rw [show (create_user db body fid ftime rid).1
          = Except.error { code := "EMAIL_EXISTS",
                           message := "User with email " ++ body.email ++ " already exists",
                           request_id := some rid } from by simp [create_user, hany]] at he
      obtain he2 := (Except.error.inj he).symm
      subst he2
      exact ⟨rfl, rfl, rfl⟩
    · rw [show (create_user db body fid ftime rid).1
          = Except.ok { id := fid, name := body.name, email := body.email,
                        created_at := ftime } from by
        simp [create_user, Bool.eq_false_iff.mpr hany]] at he
      exact Except.noConfusion he
  · intro e he
    rcases hg : dbGet db uid with _ | u
    · rw [show (update_user db uid ubody rid).1
          = Except.error { code := "USER_NOT_FOUND",
                           message := "User with ID " ++ uid ++ " not found",
                           request_id := some rid } from by simp [update_user, hg]] at he
      obtain he2 := (Except.error.inj he).symm
      subst he2
      exact ⟨rfl, rfl, rfl⟩
    · rw [update_user, hg] at he
      exact Except.noConfusion he

/-- Witness for C8: the miss of `get_user` on an empty store produces exactly
the structured `USER_NOT_FOUND` error with the request id, and the fault
mapping is fault-independent. -/
theorem errors_structured_never_echoed_witness :
    (ErrorResponse.mk "USER_NOT_FOUND" ("User with ID " ++ "9" ++ " not found")
        (some "req-5")).code = "USER_NOT_FOUND" ∧
    (ErrorResponse.mk "USER_NOT_FOUND" ("User with ID " ++ "9" ++ " not found")
        (some "req-5")).message = "User with ID " ++ "9" ++ " not found" ∧
    (ErrorResponse.mk "USER_NOT_FOUND" ("User with ID " ++ "9" ++ " not found")
        (some "req-5")).request_id = some "req-5" ∧
    mapHandlerFault "stack trace: secret" "req-5" = mapHandlerFault "other fault" "req-5" :=
  ⟨((errors_structured_never_echoed [] "9" "req-5" "f-1" "t-1"
      (CreateUserRequest.mk "n" "e") (UpdateUserRequest.mk none none)
      "stack trace: secret" "other fault").1
      (ErrorResponse.mk "USER_NOT_FOUND" ("User with ID " ++ "9" ++ " not found")
        (some "req-5")) rfl).1,
   ((errors_structured_never_echoed [] "9" "req-5" "f-1" "t-1"
      (CreateUserRequest.mk "n" "e") (UpdateUserRequest.mk none none)
      "stack trace: secret" "other fault").1
      (ErrorResponse.mk "USER_NOT_FOUND" ("User with ID " ++ "9" ++ " not found")
        (some "req-5")) rfl).2.1,
   ((errors_structured_never_echoed [] "9" "req-5" "f-1" "t-1"
      (CreateUserRequest.mk "n" "e") (UpdateUserRequest.mk none none)
      "stack trace: secret" "other fault").1
      (ErrorResponse.mk "USER_NOT_FOUND" ("User with ID " ++ "9" ++ " not found")
        (some "req-5")) rfl).2.2,
   (errors_structured_never_echoed [] "9" "req-5" "f-1" "t-1"
      (CreateUserRequest.mk "n" "e") (UpdateUserRequest.mk none none)
      "stack trace: secret" "other fault").2.2.2.1⟩

end Archimedes
